import Mathlib

namespace Engrama

/-!
Verification development for the Engrama memory middleware.

Shallow embedding of the core subsystems:
  * the dual-store memory engine (`engrama/store/qdrant_store.py` over the
    metadata-fragment operations of `engrama/store/sqlite_store.py` /
    `engrama/store/postgres_store.py`, whose fragment logic is identical),
  * channel / API-key management (`engrama/store/meta_store.py`,
    `engrama/store/postgres_store.py`),
  * the request-admission pipeline (`api/main.py`, `api/middleware.py`,
    `api/routes/memories.py`),
  * the rate limiter (`api/rate_limiter.py`).

Timestamps (`datetime.now`, `time.time`) are modelled as rationals; the
embedding vectors themselves are elided because no property below depends on
vector values — the vector database's scoring/ordering is abstracted as a
ranking function parameter constrained to return points of its input.
Python truthiness on optional strings (`if s:`) is modelled by `strTruthy`.
-/

/-- `engrama/models.py` `MemoryType`. -/
inductive MemoryType
  | factual
  | preference
  | episodic
  | session
  deriving DecidableEq, Repr

/-- `engrama/models.py` `Role`. -/
inductive Role
  | user
  | assistant
  | system
  deriving DecidableEq, Repr

/-- `engrama/models.py` `MemoryFragment`. `metadata` is kept opaque as an
optional string (its JSON value is never inspected by the code we model). -/
structure MemoryFragment where
  id : String
  tenant_id : String
  project_id : String
  user_id : String
  content : String
  memory_type : MemoryType
  role : Option Role
  session_id : Option String
  tags : List String
  hit_count : Nat
  importance : ℚ
  created_at : ℚ
  updated_at : ℚ
  metadata : Option String
  deriving DecidableEq, Repr

/-- Python truthiness of an optional string: `None` and `""` are falsy. -/
def strTruthy : Option String → Bool
  | none => false
  | some s => s ≠ ""

/-- `QdrantStore._fragment_to_payload`: the minimal payload stored with a
vector point. `session_id` is included only when truthy
(`if fragment.session_id:`). -/
structure VectorPayload where
  tenant_id : String
  project_id : String
  user_id : String
  memory_type : MemoryType
  content : String
  created_at : ℚ
  session_id : Option String
  deriving DecidableEq, Repr

def fragmentToPayload (f : MemoryFragment) : VectorPayload :=
  { tenant_id := f.tenant_id
    project_id := f.project_id
    user_id := f.user_id
    memory_type := f.memory_type
    content := f.content
    created_at := f.created_at
    session_id := if strTruthy f.session_id then f.session_id else none }

/-- A point of the shared Qdrant collection: fragment id plus payload.
The embedding vector is elided (no modelled property depends on it). -/
structure VectorPoint where
  id : String
  payload : VectorPayload
  deriving DecidableEq, Repr

def fragmentToPoint (f : MemoryFragment) : VectorPoint :=
  { id := f.id, payload := fragmentToPayload f }

/-! ## Metadata-store fragment operations

`SQLiteMetaStore` and `PostgresMetaStore` implement the `memory_fragments`
table identically; rows are modelled as a list in insertion order, with the
`id` PRIMARY KEY making a duplicate INSERT raise. -/

/-- `add_memory_fragment`: plain INSERT; raises (models the integrity error)
when the PRIMARY KEY `id` is already present. -/
def addMemoryFragment (rows : List MemoryFragment) (f : MemoryFragment) :
    Except Unit (List MemoryFragment) :=
  if rows.any (fun r => r.id = f.id) then .error () else .ok (rows ++ [f])

/-- `get_memory_fragment`: `SELECT * WHERE id = ?` with `fetchone`. -/
def getMemoryFragment (rows : List MemoryFragment) (fid : String) :
    Option MemoryFragment :=
  rows.find? (fun r => r.id = fid)

/-- `get_memory_fragments`: `SELECT * WHERE id IN (...)` — all rows whose id
is among the requested ids, in table order. -/
def getMemoryFragments (rows : List MemoryFragment) (ids : List String) :
    List MemoryFragment :=
  rows.filter (fun r => ids.contains r.id)

/-- `delete_memory_fragment`: `DELETE WHERE id = ?`; returns
`rowcount > 0`. -/
def deleteMemoryFragment (rows : List MemoryFragment) (fid : String) :
    Bool × List MemoryFragment :=
  (rows.any (fun r => r.id = fid), rows.filter (fun r => ¬ r.id = fid))

/-- The update dict built by `QdrantStore.update` from its optional
arguments: only the whitelisted columns `{content, tags, importance,
metadata}` can appear, a `none` field is simply not part of the dict. -/
structure UpdateFields where
  content : Option String
  tags : Option (List String)
  importance : Option ℚ
  metadata : Option String
  deriving DecidableEq, Repr

/-- `not updates` in Python: the dict is empty iff no field was passed. -/
def UpdateFields.isEmpty (u : UpdateFields) : Bool :=
  u.content.isNone && u.tags.isNone && u.importance.isNone && u.metadata.isNone

/-- The effect of the generated `UPDATE ... SET col = ?, updated_at = ?` on
one row: mentioned columns are overwritten, `updated_at` is set to now. -/
def applyUpdates (u : UpdateFields) (now : ℚ) (r : MemoryFragment) :
    MemoryFragment :=
  { r with
    content := u.content.getD r.content
    tags := u.tags.getD r.tags
    importance := u.importance.getD r.importance
    metadata := match u.metadata with
      | some m => some m
      | none => r.metadata
    updated_at := now }

/-- `update_memory_fragment`: an empty update dict returns `True` without
touching the database at all; otherwise the UPDATE statement runs and the
result is `rowcount > 0`. -/
def updateMemoryFragment (rows : List MemoryFragment) (u : UpdateFields)
    (now : ℚ) (fid : String) : Bool × List MemoryFragment :=
  if u.isEmpty then (true, rows)
  else (rows.any (fun r => r.id = fid),
        rows.map (fun r => if r.id = fid then applyUpdates u now r else r))

/-! ## Qdrant vector-collection primitives -/

/-- `client.upsert` with one `PointStruct`: replaces the point with this id
(if present) by the new one. -/
def upsertPoint (vec : List VectorPoint) (p : VectorPoint) : List VectorPoint :=
  vec.filter (fun q => ¬ q.id = p.id) ++ [p]

/-- `client.delete` with a `PointIdsList` of one id. -/
def deletePoint (vec : List VectorPoint) (fid : String) : List VectorPoint :=
  vec.filter (fun q => ¬ q.id = fid)

/-- `client.update_vectors` + `client.set_payload {content: c}` on one id:
only the payload `content` (and the elided vector) of that point changes. -/
def setPointContent (vec : List VectorPoint) (fid : String) (c : String) :
    List VectorPoint :=
  vec.map (fun q => if q.id = fid then { q with payload.content := c } else q)

/-! ## The dual store (`QdrantStore` over a `BaseMetaStore`) -/

/-- The combined state of the running system: the authoritative
`memory_fragments` table and the shared Qdrant collection. -/
structure DualState where
  meta : List MemoryFragment
  vec : List VectorPoint
  deriving DecidableEq, Repr

/-- A raised exception, tagged with which store misbehaved. -/
inductive StoreError
  | metaError
  | vectorError
  deriving DecidableEq, Repr

/-- `QdrantStore.add` (`qdrant_store.py:153-177`): metadata INSERT first;
then encode + upsert, injected as `vecOk` (`False` = the embedding call or
the upsert raised); on vector failure the just-written row is deleted
(compensation) and the exception is re-raised. `metaOk = False` injects a
database error on the INSERT itself, in which case nothing has been written
and no vector call happens. -/
def qdrantAdd (s : DualState) (f : MemoryFragment) (metaOk vecOk : Bool) :
    Except StoreError Unit × DualState :=
  if ¬ metaOk then (.error .metaError, s)
  else
    match addMemoryFragment s.meta f with
    | .error _ => (.error .metaError, s)
    | .ok meta1 =>
      if vecOk then
        (.ok (), { meta := meta1, vec := upsertPoint s.vec (fragmentToPoint f) })
      else
        (.error .vectorError,
         { meta := (deleteMemoryFragment meta1 f.id).2, vec := s.vec })

/-- `QdrantStore.update` (`qdrant_store.py:278-332`): load row, reject on
missing id or scope mismatch (`None`), apply the update dict, and only when
`content` was passed touch the vector side (`vecOk = False` injects a raised
exception from encode / `update_vectors` / `set_payload`, which propagates
after the metadata row has already been updated). -/
def qdrantUpdate (s : DualState) (tenant project user fid : String)
    (u : UpdateFields) (now : ℚ) (vecOk : Bool) :
    Except StoreError (Option MemoryFragment) × DualState :=
  match getMemoryFragment s.meta fid with
  | none => (.ok none, s)
  | some old =>
    if ¬ (old.tenant_id = tenant ∧ old.project_id = project ∧
          old.user_id = user) then (.ok none, s)
    else
      let r1 := updateMemoryFragment s.meta u now fid
      if ¬ r1.1 then (.ok none, { s with meta := r1.2 })
      else
        match u.content with
        | none => (.ok (getMemoryFragment r1.2 fid), { s with meta := r1.2 })
        | some c =>
          if vecOk then
            (.ok (getMemoryFragment r1.2 fid),
             { meta := r1.2, vec := setPointContent s.vec fid c })
          else (.error .vectorError, { s with meta := r1.2 })

/-- `QdrantStore.delete` (`qdrant_store.py:334-354`): load row, `False` on
missing id or scope mismatch; metadata DELETE first, then the vector-point
delete inside `try/except` — when the vector delete raises (`vecOk =
False`) the function returns `False` even though the metadata row is
already gone. -/
def qdrantDelete (s : DualState) (tenant project user fid : String)
    (vecOk : Bool) : Bool × DualState :=
  match getMemoryFragment s.meta fid with
  | none => (false, s)
  | some old =>
    if ¬ (old.tenant_id = tenant ∧ old.project_id = project ∧
          old.user_id = user) then (false, s)
    else
      let r1 := deleteMemoryFragment s.meta fid
      if ¬ r1.1 then (false, { s with meta := r1.2 })
      else if vecOk then (true, { meta := r1.2, vec := deletePoint s.vec fid })
      else (false, { s with meta := r1.2 })

/-! ## Search -/

/-- The scope-and-filter arguments of `QdrantStore.search` /
`_build_filter`. -/
structure SearchQuery where
  tenant_id : String
  project_id : String
  user_id : String
  memory_type : Option MemoryType
  session_id : Option String
  deriving DecidableEq, Repr

/-- `_build_filter` applied to a point's payload: the three scope fields
must match, plus `memory_type` when passed (`if memory_type:`) and
`session_id` when truthy (`if session_id:`; a point whose payload lacks the
field does not match). -/
def matchesFilter (q : SearchQuery) (p : VectorPoint) : Bool :=
  (p.payload.tenant_id = q.tenant_id : Bool) &&
  (p.payload.project_id = q.project_id : Bool) &&
  (p.payload.user_id = q.user_id : Bool) &&
  (match q.memory_type with
   | none => true
   | some mt => (p.payload.memory_type = mt : Bool)) &&
  (if strTruthy q.session_id then (p.payload.session_id = q.session_id : Bool)
   else true)

/-- One element of the `items` list built in `QdrantStore.search`: point id
(the `str(id).replace("-", "")` round-trip is the identity on the
dash-free `uuid4().hex` ids the store writes), payload `content`, and the
score returned by the vector index. -/
structure ScoredItem where
  id : String
  content : String
  score : ℚ
  deriving DecidableEq, Repr

/-- One enriched result: the metadata row with its `content` overwritten by
the vector payload's content, plus (for `search`) the pass-through score. -/
structure Enriched where
  frag : MemoryFragment
  score : Option ℚ
  deriving DecidableEq, Repr

/-- The dict comprehension `{m["id"]: m for m in metas}`: the last row with
a given id wins. -/
def metaMapFind (metas : List MemoryFragment) (fid : String) :
    Option MemoryFragment :=
  metas.reverse.find? (fun m => m.id = fid)

/-- `QdrantStore._enrich_with_meta_store` (`qdrant_store.py:111-132`): bulk
read the hit ids from the metadata store; an item whose id has no metadata
row is skipped (`continue`); a surviving item yields the metadata row with
`content` overwritten from the item and, when `withScore`, the item's
score attached. -/
def enrichWithMetaStore (rows : List MemoryFragment) (items : List ScoredItem)
    (withScore : Bool) : List Enriched :=
  let metas := getMemoryFragments rows (items.map (fun i => i.id))
  items.filterMap (fun it =>
    (metaMapFind metas it.id).map (fun m =>
      { frag := { m with content := it.content }
        score := if withScore then some it.score else none }))

/-- `QdrantStore.search` (`qdrant_store.py:179-211`): the vector query is
the filtered collection handed to an abstract ranking function `rank`
(standing for ANN scoring and ordering; a faithful `rank` only returns
points of its input, which the theorems assume), truncated to `limit`;
the hits are then enriched from the metadata store with scores. -/
def qdrantSearch (s : DualState) (q : SearchQuery) (limit : Nat)
    (rank : List VectorPoint → List (VectorPoint × ℚ)) : List Enriched :=
  let pts := s.vec.filter (matchesFilter q)
  let ranked := (rank pts).take limit
  let items := ranked.map (fun pr =>
    { id := pr.1.id, content := pr.1.payload.content, score := pr.2 })
  enrichWithMetaStore s.meta items true

/-! ## Operation sequences and the cross-store invariant -/

/-- One engine write operation, with its failure injections. -/
inductive MemOp
  | add (f : MemoryFragment) (metaOk vecOk : Bool)
  | update (tenant project user fid : String) (u : UpdateFields) (now : ℚ)
      (vecOk : Bool)
  | delete (tenant project user fid : String) (vecOk : Bool)
  deriving DecidableEq, Repr

/-- Apply one operation to the dual store, dropping the returned value. -/
def applyOp (s : DualState) : MemOp → DualState
  | .add f metaOk vecOk => (qdrantAdd s f metaOk vecOk).2
  | .update t p u' fid upd now vecOk =>
      (qdrantUpdate s t p u' fid upd now vecOk).2
  | .delete t p u' fid vecOk => (qdrantDelete s t p u' fid vecOk).2

/-- The empty system: fresh metadata store and fresh collection. -/
def initState : DualState := { meta := [], vec := [] }

/-- Run a sequence of operations from the empty system. -/
def runOps (ops : List MemOp) : DualState := ops.foldl applyOp initState

/-- The `(tenant_id, project_id, user_id)` of a metadata row equals the
scope recorded in a vector payload. -/
def ScopeEq (r : MemoryFragment) (p : VectorPayload) : Prop :=
  r.tenant_id = p.tenant_id ∧ r.project_id = p.project_id ∧
  r.user_id = p.user_id

instance (r : MemoryFragment) (p : VectorPayload) : Decidable (ScopeEq r p) :=
  inferInstanceAs (Decidable (_ ∧ _ ∧ _))

/-- Cross-store consistency: whenever a vector point and a metadata row
share an id, their scopes agree. (Orphan points with no row, and rows with
no point, are both allowed — the vector side only ever diverges by carrying
stale leftovers.) -/
def StoresConsistent (s : DualState) : Prop :=
  ∀ p ∈ s.vec, ∀ r ∈ s.meta, r.id = p.id → ScopeEq r p.payload

/-! ### Invariant preservation -/

/-- Row `r'` descends from row `r` keeping id and scope. -/
def RowScopeLike (r' r : MemoryFragment) : Prop :=
  r'.id = r.id ∧ r'.tenant_id = r.tenant_id ∧
  r'.project_id = r.project_id ∧ r'.user_id = r.user_id

/-- Point `p'` descends from point `p` keeping id and payload scope. -/
def PointScopeLike (p' p : VectorPoint) : Prop :=
  p'.id = p.id ∧ p'.payload.tenant_id = p.payload.tenant_id ∧
  p'.payload.project_id = p.payload.project_id ∧
  p'.payload.user_id = p.payload.user_id

/-- A sample fragment used by concrete witnesses. -/
def sampleFragment : MemoryFragment :=
  { id := "f1", tenant_id := "t1", project_id := "p1", user_id := "u1"
    content := "hello", memory_type := .factual, role := none
    session_id := none, tags := [], hit_count := 0, importance := 0
    created_at := 0, updated_at := 0, metadata := none }

/-- A ranking function that scores every filtered point 1, in order. -/
def sampleRank (pts : List VectorPoint) : List (VectorPoint × ℚ) :=
  pts.map (fun p => (p, 1))

/-- The scope query matching `sampleFragment`. -/
def sampleQuery : SearchQuery :=
  { tenant_id := "t1", project_id := "p1", user_id := "u1"
    memory_type := none, session_id := none }

/-- A vector point with no metadata row, in the sample scope. -/
def orphanPoint : VectorPoint :=
  { id := "f2"
    payload := { tenant_id := "t1", project_id := "p1", user_id := "u1"
                 memory_type := .factual, content := "ghost"
                 created_at := 0, session_id := none } }

/-- A dual state holding `sampleFragment` in both stores plus an orphan
vector point. -/
def orphanState : DualState :=
  { meta := [sampleFragment]
    vec := [fragmentToPoint sampleFragment, orphanPoint] }

/-! ## C6: delete result vs. vector-delete failure -/

/-- The state holding the sample fragment consistently in both stores. -/
def sampleState : DualState :=
  { meta := [sampleFragment], vec := [fragmentToPoint sampleFragment] }

/-- The update request passing none of the updatable fields. -/
def emptyUpdate : UpdateFields :=
  { content := none, tags := none, importance := none, metadata := none }

/-- The update request changing only `importance`. -/
def importanceUpdate : UpdateFields :=
  { content := none, tags := none, importance := some 1, metadata := none }

/-! ## C2: scope resolution (`api/routes/memories.py` `_resolve_user_id`) -/

/-- Outcome of `_resolve_user_id`: the effective user id, or one of the two
`HTTPException`s it raises (403 forbidden / 400 bad request). -/
inductive ResolveResult
  | ok (uid : String)
  | forbidden
  | badRequest
  deriving DecidableEq, Repr

/-- `_resolve_user_id` (`memories.py:38-68`): `bound` is
`request.state.bound_user_id` (the key's binding, `None` for a project
key), `passed` the request's `user_id`; Python truthiness decides presence
on both sides. -/
def resolveUserId (bound passed : Option String) : ResolveResult :=
  if strTruthy bound = true then
    if strTruthy passed = true ∧ ¬ passed.getD "" = bound.getD "" then
      .forbidden
    else .ok (bound.getD "")
  else
    if ¬ strTruthy passed = true then .badRequest
    else .ok (passed.getD "")

/-! ## C4: API-key verification -/

/-- One row of the `api_keys` table. -/
structure ApiKeyRow where
  key_id : String
  key_hash : String
  tenant_id : String
  project_id : String
  user_id : Option String
  created_at : ℚ
  is_active : Bool
  deriving DecidableEq, Repr

/-- `engrama/models.py` `ApiKey` (the pydantic model has no
`key_id`/`key_hash` fields; those constructor kwargs are ignored). -/
structure ApiKey where
  key : String
  tenant_id : String
  project_id : String
  user_id : Option String
  created_at : ℚ
  is_active : Bool
  deriving DecidableEq, Repr

/-- The `ApiKey(...)` built by `verify_api_key` from a matching row. -/
def apiKeyOfRow (secret : String) (r : ApiKeyRow) : ApiKey :=
  { key := secret, tenant_id := r.tenant_id, project_id := r.project_id
    user_id := r.user_id, created_at := r.created_at
    is_active := r.is_active }

/-- `verify_api_key` (`meta_store.py:307-326`, identical in
`sqlite_store.py:310-328` and `postgres_store.py:317-337`): hash the
secret, `SELECT ... WHERE key_hash = ? AND is_active = 1` (`fetchone`),
`None` on no row, else the `ApiKey` carrying the row's scope. The SHA-256
hex digest is the abstract `hash` parameter. -/
def verifyApiKey (hash : String → String) (rows : List ApiKeyRow)
    (secret : String) : Option ApiKey :=
  (rows.find? (fun r => r.key_hash = hash secret && r.is_active)).map
    (apiKeyOfRow secret)

/-- A sample active key row. -/
def sampleKeyRow : ApiKeyRow :=
  { key_id := "eng_k1", key_hash := "h-secret", tenant_id := "t1"
    project_id := "p1", user_id := some "alice", created_at := 0
    is_active := true }

/-- A sample revoked key row. -/
def revokedKeyRow : ApiKeyRow :=
  { key_id := "eng_k2", key_hash := "h-old", tenant_id := "t1"
    project_id := "p1", user_id := none, created_at := 0
    is_active := false }

/-- A sample hash function for witnesses. -/
def sampleHash (s : String) : String := "h-" ++ s

/-! ## C7: project deletion and key revocation -/

/-- One row of the `projects` table. -/
structure ProjectRow where
  id : String
  tenant_id : String
  name : String
  created_at : ℚ
  deriving DecidableEq, Repr

/-- The tables `delete_project` touches. -/
structure ChannelState where
  projects : List ProjectRow
  keys : List ApiKeyRow
  deriving DecidableEq, Repr

/-- `get_project`: `SELECT ... WHERE id = ?` with `fetchone`. -/
def getProject (projects : List ProjectRow) (pid : String) :
    Option ProjectRow :=
  projects.find? (fun pr => pr.id = pid)

/-- `MetaStore.delete_project` (`meta_store.py:237-261`): verify the
project exists and belongs to the tenant (else `False`); then
`UPDATE api_keys SET is_active = 0 WHERE project_id = ?` (soft-revoke, the
rows remain) and `DELETE FROM projects WHERE id = ?`; the result is the
DELETE's `rowcount > 0`. -/
def metaStoreDeleteProject (s : ChannelState) (pid tid : String) :
    Bool × ChannelState :=
  match getProject s.projects pid with
  | none => (false, s)
  | some pr =>
    if ¬ pr.tenant_id = tid then (false, s)
    else
      (s.projects.any (fun p => p.id = pid),
       { projects := s.projects.filter (fun p => ¬ p.id = pid)
         keys := s.keys.map (fun k =>
           if k.project_id = pid then { k with is_active := false } else k) })

/-- `PostgresMetaStore.delete_project` (`postgres_store.py:271-285`;
`SQLiteMetaStore.delete_project` in `sqlite_store.py:267-279` is
identical): same ownership check, but
`DELETE FROM api_keys WHERE project_id = ?` — the key rows are removed
outright — then the project row is deleted. -/
def pgDeleteProject (s : ChannelState) (pid tid : String) :
    Bool × ChannelState :=
  match getProject s.projects pid with
  | none => (false, s)
  | some pr =>
    if ¬ pr.tenant_id = tid then (false, s)
    else
      (s.projects.any (fun p => p.id = pid),
       { projects := s.projects.filter (fun p => ¬ p.id = pid)
         keys := s.keys.filter (fun k => ¬ k.project_id = pid) })

/-- A sample project row owned by tenant `t1`. -/
def sampleProjectRow : ProjectRow :=
  { id := "p1", tenant_id := "t1", name := "bot", created_at := 0 }

/-- One project with one active key under it. -/
def sampleChannelState : ChannelState :=
  { projects := [sampleProjectRow], keys := [sampleKeyRow] }

/-! ## C10: the in-process fallback rate limiter
(`api/rate_limiter.py` `_InMemoryRateLimiter.is_rate_limited` and
`RateLimiterMiddleware._check_redis`) -/

/-- One `is_rate_limited` call on a single identity's window: trim entries
at or before `now - 60`, reject when the trimmed window already has
`max_rpm` entries (recording nothing), else append `now` and admit.
Returns `(rejected?, new window)`. -/
def memStep (maxRpm : Nat) (w : List ℚ) (now : ℚ) : Bool × List ℚ :=
  let w' := w.filter (fun t => now - 60 < t)
  if maxRpm ≤ w'.length then (true, w') else (false, w' ++ [now])

/-- Process a sequence of request times against one identity's window;
returns the final window and the per-request rejection decisions. -/
def memRun (maxRpm : Nat) : List ℚ → List ℚ → List ℚ × List Bool
  | [], w => (w, [])
  | t :: ts, w =>
    let st := memStep maxRpm w t
    let rest := memRun maxRpm ts st.2
    (rest.1, st.1 :: rest.2)

/-- The timestamps of the admitted requests of a run. -/
def admittedOf (ts : List ℚ) (ds : List Bool) : List ℚ :=
  ((ts.zip ds).filter (fun p => p.2 = false)).map (fun p => p.1)

/-- One `_check_redis` batch on the identity's sorted-set, as a state
transform: `ZREMRANGEBYSCORE -inf (now-60)` then `ZADD now` then `ZCARD`;
the request is rejected when the count (which already includes `now`)
exceeds the limit — the timestamp is recorded whether or not the request
is rejected. -/
def redisStep (maxRpm : Nat) (w : List ℚ) (now : ℚ) : Bool × List ℚ :=
  let w' := w.filter (fun t => now - 60 < t) ++ [now]
  (decide (maxRpm < w'.length), w')

/-! ## C5: admission-pipeline middleware order
(`api/main.py` `create_app`, `api/middleware.py`, `api/rate_limiter.py`) -/

/-- `config.AUTH_EXCLUDED_PREFIXES`. -/
def authExcludedPrefixes : List String := ["/docs", "/redoc", "/openapi.json"]

/-- Python's `path.startswith(pre)`. -/
def strStartsWith (s pre : String) : Bool := pre.data.isPrefixOf s.data

/-- The parts of an inbound HTTP request the admission pipeline reads. -/
structure Request where
  path : String
  adminToken : Option String
  apiKey : Option String
  clientHost : String
  deriving DecidableEq, Repr

/-- A short-circuit response from the pipeline (status + `error` kind). -/
structure Response where
  status : Nat
  error : String
  deriving DecidableEq, Repr

/-- The per-identity windows of the in-process limiter
(`defaultdict(list)`). -/
abbrev Windows := List (String × List ℚ)

def windowGet (w : Windows) (cid : String) : List ℚ :=
  ((w.find? (fun e => e.1 = cid)).map (fun e => e.2)).getD []

def windowSet (w : Windows) (cid : String) (ts : List ℚ) : Windows :=
  if w.any (fun e => e.1 = cid) then
    w.map (fun e => if e.1 = cid then (cid, ts) else e)
  else w ++ [(cid, ts)]

/-- A middleware/endpoint stage: limiter state in, response and state
out. -/
abbrev Handler := Windows → Response × Windows

/-- `RateLimiterMiddleware.dispatch` in the deployment without a
configured `ENGRAMA_REDIS_URL` (the default), i.e. on the in-process
fallback: no-op when the limit is non-positive; the identity is the
`X-API-Key` header when truthy else the client address; a tripped limiter
answers 429 and stops, otherwise the request continues. -/
def rateLimiterDispatch (maxRpm : Nat) (req : Request) (now : ℚ)
    (next : Handler) : Handler := fun w =>
  if maxRpm ≤ 0 then next w
  else
    let cid := if strTruthy req.apiKey then req.apiKey.getD ""
      else req.clientHost
    let st := memStep maxRpm (windowGet w cid) now
    if st.1 then
      ({ status := 429, error := "rate_limited" }, windowSet w cid st.2)
    else next (windowSet w cid st.2)

/-- `ApiKeyAuthMiddleware.dispatch` (`middleware.py:41-114`): public paths
pass through; `/v1/channels*` requires the admin token (fail-closed 403
when none is configured, 401 when the header is missing, 403 on
mismatch); every other path requires a verifying API key (401
otherwise). The scope attached to `request.state` is irrelevant to the
gate order and elided. -/
def apiKeyAuthDispatch (adminToken : String) (hash : String → String)
    (keys : List ApiKeyRow) (req : Request) (next : Handler) :
    Handler := fun w =>
  if authExcludedPrefixes.any (fun pre => strStartsWith req.path pre) ∨
      req.path = "/" ∨ req.path = "/health" then next w
  else if strStartsWith req.path "/v1/channels" then
    if adminToken = "" then ({ status := 403, error := "forbidden" }, w)
    else if ¬ strTruthy req.adminToken = true then
      ({ status := 401, error := "unauthorized" }, w)
    else if ¬ req.adminToken.getD "" = adminToken then
      ({ status := 403, error := "forbidden" }, w)
    else next w
  else
    if ¬ strTruthy req.apiKey = true then
      ({ status := 401, error := "unauthorized" }, w)
    else
      match verifyApiKey hash keys (req.apiKey.getD "") with
      | none => ({ status := 401, error := "unauthorized" }, w)
      | some _ => next w

/-- The middleware stack built by `create_app` (`main.py:50-135`):
`CORSMiddleware` is added first, then `RateLimiterMiddleware` (only when
`RATE_LIMIT_PER_MINUTE > 0`), then `ApiKeyAuthMiddleware`. Starlette's
`add_middleware` prepends, so the auth middleware added last is the
outermost and dispatches first; CORS, innermost and a pass-through for
ordinary requests, is elided. -/
def appHandle (adminToken : String) (maxRpm : Nat) (hash : String → String)
    (keys : List ApiKeyRow) (req : Request) (now : ℚ) (router : Handler) :
    Handler :=
  apiKeyAuthDispatch adminToken hash keys req
    (if 0 < maxRpm then rateLimiterDispatch maxRpm req now router
     else router)

/-- The endpoint stage standing for the routed request handler. -/
def okRouter : Handler := fun w => ({ status := 200, error := "" }, w)

/-- A memory-path request carrying an unknown API key. -/
def c5Request : Request :=
  { path := "/v1/memories", adminToken := none, apiKey := some "bad"
    clientHost := "10.0.0.1" }

/-- A window state in which identity `"bad"` has exhausted a 1-per-minute
limit at time 100. -/
def c5Windows : Windows := [("bad", [90])]

/-- A memory-path request carrying the valid sample key secret. -/
def c5OkRequest : Request :=
  { path := "/v1/memories", adminToken := none, apiKey := some "secret"
    clientHost := "10.0.0.1" }

/-- Windows in which the sample key's identity has exhausted a
1-per-minute limit at time 100. -/
def c5OkWindows : Windows := [("secret", [90])]

/-! ## Theorems -/

theorem storesConsistent_init : StoresConsistent initState := by
  intro p hp
  simp [initState] at hp

theorem scopeEq_fragmentToPayload (f : MemoryFragment) :
    ScopeEq f (fragmentToPayload f) := by
  refine ⟨rfl, rfl, rfl⟩

theorem applyUpdates_id (u : UpdateFields) (now : ℚ) (r : MemoryFragment) :
    (applyUpdates u now r).id = r.id := rfl

theorem applyUpdates_scope (u : UpdateFields) (now : ℚ) (r : MemoryFragment)
    (p : VectorPayload) (h : ScopeEq r p) : ScopeEq (applyUpdates u now r) p :=
  h

/-! ### Branch characterizations of the three write operations -/

theorem qdrantAdd_metaFail (s : DualState) (f : MemoryFragment)
    (vecOk : Bool) : qdrantAdd s f false vecOk = (.error .metaError, s) := rfl

theorem qdrantAdd_dup (s : DualState) (f : MemoryFragment) (vecOk : Bool)
    (h : s.meta.any (fun r => r.id = f.id) = true) :
    qdrantAdd s f true vecOk = (.error .metaError, s) := by
  simp [qdrantAdd, addMemoryFragment, h]

theorem qdrantAdd_ok (s : DualState) (f : MemoryFragment)
    (h : s.meta.any (fun r => r.id = f.id) = false) :
    qdrantAdd s f true true =
      (.ok (), { meta := s.meta ++ [f],
                 vec := upsertPoint s.vec (fragmentToPoint f) }) := by
  simp [qdrantAdd, addMemoryFragment, h]

theorem qdrantAdd_vecFail (s : DualState) (f : MemoryFragment)
    (h : s.meta.any (fun r => r.id = f.id) = false) :
    qdrantAdd s f true false = (.error .vectorError, s) := by
  have h1 : s.meta.filter (fun r => !decide (r.id = f.id)) = s.meta :=
    List.filter_eq_self.mpr (fun r hr => by
      simpa using List.any_eq_false.mp h r hr)
  simp [qdrantAdd, addMemoryFragment, deleteMemoryFragment, h, h1]

theorem qdrantUpdate_notFound (s : DualState) (t p u fid : String)
    (upd : UpdateFields) (now : ℚ) (vecOk : Bool)
    (h : getMemoryFragment s.meta fid = none) :
    qdrantUpdate s t p u fid upd now vecOk = (.ok none, s) := by
  simp [qdrantUpdate, h]

theorem qdrantUpdate_wrongScope (s : DualState) (t p u fid : String)
    (upd : UpdateFields) (now : ℚ) (vecOk : Bool) (old : MemoryFragment)
    (h : getMemoryFragment s.meta fid = some old)
    (hsc : ¬ (old.tenant_id = t ∧ old.project_id = p ∧ old.user_id = u)) :
    qdrantUpdate s t p u fid upd now vecOk = (.ok none, s) := by
  simp [qdrantUpdate, h, hsc]

theorem qdrantUpdate_meta_cases (s : DualState) (t p u fid : String)
    (upd : UpdateFields) (now : ℚ) (vecOk : Bool) :
    (qdrantUpdate s t p u fid upd now vecOk).2.meta = s.meta ∨
    (qdrantUpdate s t p u fid upd now vecOk).2.meta =
      s.meta.map (fun r => if r.id = fid then applyUpdates upd now r else r) := by
  unfold qdrantUpdate
  cases h : getMemoryFragment s.meta fid with
  | none => left; rfl
  | some old =>
    simp only
    split
    · left; rfl
    · unfold updateMemoryFragment
      by_cases he : upd.isEmpty = true
      · simp only [he, if_true]
        split
        · left; rfl
        · cases upd.content with
          | none => left; rfl
          | some c =>
            simp only
            split
            · left; rfl
            · left; rfl
      · simp only [he, Bool.false_eq_true, if_false]
        split
        · right; rfl
        · cases upd.content with
          | none => right; rfl
          | some c =>
            simp only
            split
            · right; rfl
            · right; rfl

theorem qdrantUpdate_vec_cases (s : DualState) (t p u fid : String)
    (upd : UpdateFields) (now : ℚ) (vecOk : Bool) :
    (qdrantUpdate s t p u fid upd now vecOk).2.vec = s.vec ∨
    ∃ c, (qdrantUpdate s t p u fid upd now vecOk).2.vec =
      setPointContent s.vec fid c := by
  unfold qdrantUpdate
  cases h : getMemoryFragment s.meta fid with
  | none => left; rfl
  | some old =>
    simp only
    split
    · left; rfl
    · split
      · left; rfl
      · cases upd.content with
        | none => left; rfl
        | some c =>
          simp only
          split
          · right; exact ⟨c, rfl⟩
          · left; rfl

theorem qdrantDelete_notFound (s : DualState) (t p u fid : String)
    (vecOk : Bool) (h : getMemoryFragment s.meta fid = none) :
    qdrantDelete s t p u fid vecOk = (false, s) := by
  simp [qdrantDelete, h]

theorem qdrantDelete_wrongScope (s : DualState) (t p u fid : String)
    (vecOk : Bool) (old : MemoryFragment)
    (h : getMemoryFragment s.meta fid = some old)
    (hsc : ¬ (old.tenant_id = t ∧ old.project_id = p ∧ old.user_id = u)) :
    qdrantDelete s t p u fid vecOk = (false, s) := by
  simp [qdrantDelete, h, hsc]

theorem qdrantDelete_meta_cases (s : DualState) (t p u fid : String)
    (vecOk : Bool) :
    (qdrantDelete s t p u fid vecOk).2.meta = s.meta ∨
    (qdrantDelete s t p u fid vecOk).2.meta =
      s.meta.filter (fun r => ¬ r.id = fid) := by
  unfold qdrantDelete
  cases h : getMemoryFragment s.meta fid with
  | none => left; rfl
  | some old =>
    simp only
    split
    · left; rfl
    · unfold deleteMemoryFragment
      split
      · right; rfl
      · split
        · right; rfl
        · right; rfl

theorem qdrantDelete_vec_cases (s : DualState) (t p u fid : String)
    (vecOk : Bool) :
    (qdrantDelete s t p u fid vecOk).2.vec = s.vec ∨
    (qdrantDelete s t p u fid vecOk).2.vec = deletePoint s.vec fid := by
  unfold qdrantDelete
  cases h : getMemoryFragment s.meta fid with
  | none => left; rfl
  | some old =>
    simp only
    split
    · left; rfl
    · unfold deleteMemoryFragment
      split
      · left; rfl
      · split
        · right; rfl
        · left; rfl

theorem storesConsistent_mono (s s' : DualState)
    (hmeta : ∀ r' ∈ s'.meta, ∃ r ∈ s.meta, RowScopeLike r' r)
    (hvec : ∀ p' ∈ s'.vec, ∃ p ∈ s.vec, PointScopeLike p' p)
    (hs : StoresConsistent s) : StoresConsistent s' := by
  intro p' hp' r' hr' hid
  obtain ⟨p, hp, hpl⟩ := hvec p' hp'
  obtain ⟨r, hr, hrl⟩ := hmeta r' hr'
  have hid2 : r.id = p.id := by
    rw [← hrl.1, ← hpl.1]
    exact hid
  obtain ⟨h1, h2, h3⟩ := hs p hp r hr hid2
  exact ⟨by rw [hrl.2.1, hpl.2.1]; exact h1,
         by rw [hrl.2.2.1, hpl.2.2.1]; exact h2,
         by rw [hrl.2.2.2, hpl.2.2.2]; exact h3⟩

theorem storesConsistent_add (s : DualState) (f : MemoryFragment)
    (metaOk vecOk : Bool) (hs : StoresConsistent s) :
    StoresConsistent (qdrantAdd s f metaOk vecOk).2 := by
  cases metaOk with
  | false => rw [qdrantAdd_metaFail]; exact hs
  | true =>
    cases hdup : s.meta.any (fun r => r.id = f.id) with
    | true => rw [qdrantAdd_dup s f vecOk hdup]; exact hs
    | false =>
      cases vecOk with
      | false => rw [qdrantAdd_vecFail s f hdup]; exact hs
      | true =>
        rw [qdrantAdd_ok s f hdup]
        intro p hp r hr hid
        simp only [List.mem_append, List.mem_singleton] at hr
        have hpmem : p ∈ s.vec.filter (fun q => ¬ q.id = f.id) ∨
            p = fragmentToPoint f := by
          simpa [upsertPoint, List.mem_append] using hp
        rcases hpmem with hp1 | hp1
        · have hp2 := List.mem_filter.mp hp1
          have hpne : ¬ p.id = f.id := by simpa using hp2.2
          rcases hr with hr | hr
          · exact hs p hp2.1 r hr hid
          · exfalso
            apply hpne
            rw [← hid, hr]
        · subst hp1
          rcases hr with hr | hr
          · exfalso
            have := List.any_eq_false.mp hdup r hr
            simp only [decide_eq_true_eq] at this
            apply this
            simpa [fragmentToPoint] using hid
          · subst hr
            exact scopeEq_fragmentToPayload _

theorem storesConsistent_update (s : DualState) (t p' u' fid : String)
    (upd : UpdateFields) (now : ℚ) (vecOk : Bool) (hs : StoresConsistent s) :
    StoresConsistent (qdrantUpdate s t p' u' fid upd now vecOk).2 := by
  apply storesConsistent_mono s _ _ _ hs
  · intro r' hr'
    rcases qdrantUpdate_meta_cases s t p' u' fid upd now vecOk with h | h
    · rw [h] at hr'
      exact ⟨r', hr', rfl, rfl, rfl, rfl⟩
    · rw [h] at hr'
      obtain ⟨r, hr, hre⟩ := List.mem_map.mp hr'
      by_cases hrid : r.id = fid
      · rw [if_pos hrid] at hre
        subst hre
        exact ⟨r, hr, rfl, rfl, rfl, rfl⟩
      · rw [if_neg hrid] at hre
        subst hre
        exact ⟨r, hr, rfl, rfl, rfl, rfl⟩
  · intro q hq
    rcases qdrantUpdate_vec_cases s t p' u' fid upd now vecOk with h | ⟨c, h⟩
    · rw [h] at hq
      exact ⟨q, hq, rfl, rfl, rfl, rfl⟩
    · rw [h] at hq
      obtain ⟨q0, hq0, hqe⟩ := List.mem_map.mp hq
      by_cases hqid : q0.id = fid
      · rw [if_pos hqid] at hqe
        subst hqe
        exact ⟨q0, hq0, rfl, rfl, rfl, rfl⟩
      · rw [if_neg hqid] at hqe
        subst hqe
        exact ⟨q0, hq0, rfl, rfl, rfl, rfl⟩

theorem storesConsistent_delete (s : DualState) (t p' u' fid : String)
    (vecOk : Bool) (hs : StoresConsistent s) :
    StoresConsistent (qdrantDelete s t p' u' fid vecOk).2 := by
  apply storesConsistent_mono s _ _ _ hs
  · intro r' hr'
    rcases qdrantDelete_meta_cases s t p' u' fid vecOk with h | h
    · rw [h] at hr'
      exact ⟨r', hr', rfl, rfl, rfl, rfl⟩
    · rw [h] at hr'
      exact ⟨r', (List.mem_filter.mp hr').1, rfl, rfl, rfl, rfl⟩
  · intro q hq
    rcases qdrantDelete_vec_cases s t p' u' fid vecOk with h | h
    · rw [h] at hq
      exact ⟨q, hq, rfl, rfl, rfl, rfl⟩
    · rw [h] at hq
      exact ⟨q, (List.mem_filter.mp hq).1, rfl, rfl, rfl, rfl⟩

theorem storesConsistent_applyOp (s : DualState) (op : MemOp)
    (hs : StoresConsistent s) : StoresConsistent (applyOp s op) := by
  cases op with
  | add f metaOk vecOk => exact storesConsistent_add s f metaOk vecOk hs
  | update t p u' fid upd now vecOk =>
      exact storesConsistent_update s t p u' fid upd now vecOk hs
  | delete t p u' fid vecOk =>
      exact storesConsistent_delete s t p u' fid vecOk hs

theorem storesConsistent_runOps (ops : List MemOp) :
    StoresConsistent (runOps ops) := by
  have h : ∀ (l : List MemOp) (s : DualState), StoresConsistent s →
      StoresConsistent (l.foldl applyOp s) := by
    intro l
    induction l with
    | nil => intro s hs; exact hs
    | cons op l ih =>
        intro s hs
        exact ih _ (storesConsistent_applyOp s op hs)
  exact h ops initState storesConsistent_init

/-! ### Anatomy of a search hit -/

theorem metaMapFind_elim (metas : List MemoryFragment) (fid : String)
    (m : MemoryFragment) (h : metaMapFind metas fid = some m) :
    m ∈ metas ∧ m.id = fid := by
  unfold metaMapFind at h
  refine ⟨List.mem_reverse.mp (List.mem_of_find?_eq_some h), ?_⟩
  have := List.find?_some h
  simpa using this

theorem mem_qdrantSearch_elim (s : DualState) (q : SearchQuery) (limit : Nat)
    (rank : List VectorPoint → List (VectorPoint × ℚ))
    (hrank : ∀ pr ∈ rank (s.vec.filter (matchesFilter q)),
      pr.1 ∈ s.vec.filter (matchesFilter q))
    (x : Enriched) (hx : x ∈ qdrantSearch s q limit rank) :
    ∃ pr ∈ rank (s.vec.filter (matchesFilter q)),
      pr.1 ∈ s.vec ∧ matchesFilter q pr.1 = true ∧
      ∃ m ∈ s.meta, m.id = pr.1.id ∧
        x.frag = { m with content := pr.1.payload.content } ∧
        x.score = some pr.2 := by
  unfold qdrantSearch enrichWithMetaStore at hx
  obtain ⟨it, hit, hsome⟩ := List.mem_filterMap.mp hx
  obtain ⟨m, hm, hxe⟩ := Option.map_eq_some'.mp hsome
  obtain ⟨pr, hpr, hite⟩ := List.mem_map.mp hit
  have hpr' : pr ∈ rank (s.vec.filter (matchesFilter q)) :=
    List.mem_of_mem_take hpr
  have hp := List.mem_filter.mp (hrank pr hpr')
  obtain ⟨hmm, hmid⟩ := metaMapFind_elim _ _ _ hm
  have hmmeta : m ∈ s.meta := (List.mem_filter.mp hmm).1
  refine ⟨pr, hpr', hp.1, hp.2, m, hmmeta, ?_, ?_, ?_⟩
  · rw [hmid, ← hite]
  · rw [← hxe]
    subst hite
    rfl
  · rw [← hxe]
    subst hite
    rfl

/-- C1. Cross-store invariant: after any sequence of `add`, `update` and
`delete` operations — including operations whose vector-store step failed —
every fragment retrievable from the vector index (i.e. surviving the
hydration step of `search`) has a metadata row with the same id whose
`(tenant_id, project_id, user_id)` equal the scope in the vector point's
payload. -/
theorem c1_cross_store_invariant (ops : List MemOp) (q : SearchQuery)
    (limit : Nat) (rank : List VectorPoint → List (VectorPoint × ℚ))
    (hrank : ∀ (pts : List VectorPoint), ∀ pr ∈ rank pts, pr.1 ∈ pts)
    (x : Enriched) (hx : x ∈ qdrantSearch (runOps ops) q limit rank) :
    ∃ p ∈ (runOps ops).vec, ∃ r ∈ (runOps ops).meta,
      p.id = x.frag.id ∧ r.id = x.frag.id ∧ ScopeEq r p.payload := by
  obtain ⟨pr, hpr, hpv, hpm, m, hm, hmid, hxf, hxs⟩ :=
    mem_qdrantSearch_elim (runOps ops) q limit rank (hrank _) x hx
  have hxid : x.frag.id = m.id := by rw [hxf]
  refine ⟨pr.1, hpv, m, hm, ?_, ?_, ?_⟩
  · rw [hxid, hmid]
  · rw [hxid]
  · exact storesConsistent_runOps ops pr.1 hpv m hm hmid

theorem c1_witness :
    ∃ p ∈ (runOps [MemOp.add sampleFragment true true]).vec,
      ∃ r ∈ (runOps [MemOp.add sampleFragment true true]).meta,
        p.id = (Enriched.mk sampleFragment (some 1)).frag.id ∧
        r.id = (Enriched.mk sampleFragment (some 1)).frag.id ∧
        ScopeEq r p.payload :=
  c1_cross_store_invariant [MemOp.add sampleFragment true true] sampleQuery
    10 sampleRank
    (by
      intro pts pr hpr
      simp only [sampleRank, List.mem_map] at hpr
      obtain ⟨p, hp, he⟩ := hpr
      rw [← he]
      exact hp)
    (Enriched.mk sampleFragment (some 1)) (by decide)

/-- C8. Hydration-drop: every fragment returned by `search` exists in the
metadata store and is hydrated from its row (all fields of the result other
than the overlaid `content` are the row's); a vector point whose id has no
metadata row is silently dropped from the results rather than causing an
error; and the similarity scores attached to surviving results are the
vector index's scores unmodified. -/
theorem c8_search_hydration_drop (s : DualState) (q : SearchQuery)
    (limit : Nat) (rank : List VectorPoint → List (VectorPoint × ℚ))
    (hrank : ∀ (pts : List VectorPoint), ∀ pr ∈ rank pts, pr.1 ∈ pts) :
    (∀ x ∈ qdrantSearch s q limit rank,
       (∃ r ∈ s.meta, r.id = x.frag.id ∧
          x.frag = { r with content := x.frag.content }) ∧
       ∃ pr ∈ rank (s.vec.filter (matchesFilter q)),
         pr.1.id = x.frag.id ∧ x.frag.content = pr.1.payload.content ∧
         x.score = some pr.2) ∧
    (∀ fid, getMemoryFragment s.meta fid = none →
       ∀ x ∈ qdrantSearch s q limit rank, ¬ x.frag.id = fid) := by
  constructor
  · intro x hx
    obtain ⟨pr, hpr, hpv, hpm, m, hm, hmid, hxf, hxs⟩ :=
      mem_qdrantSearch_elim s q limit rank (hrank _) x hx
    constructor
    · refine ⟨m, hm, ?_, ?_⟩
      · rw [hxf]
      · rw [hxf]
    · exact ⟨pr, hpr, by rw [hxf, hmid], by rw [hxf], hxs⟩
  · intro fid hnone x hx hxid
    obtain ⟨pr, hpr, hpv, hpm, m, hm, hmid, hxf, hxs⟩ :=
      mem_qdrantSearch_elim s q limit rank (hrank _) x hx
    have : ¬ (m.id = fid : Bool) = true := List.find?_eq_none.mp hnone m hm
    apply this
    simp only [decide_eq_true_eq]
    rw [← hxid, hxf]

theorem c8_witness :
    ((∀ x ∈ qdrantSearch orphanState sampleQuery 10 sampleRank,
        (∃ r ∈ orphanState.meta, r.id = x.frag.id ∧
           x.frag = { r with content := x.frag.content }) ∧
        ∃ pr ∈ sampleRank (orphanState.vec.filter (matchesFilter sampleQuery)),
          pr.1.id = x.frag.id ∧ x.frag.content = pr.1.payload.content ∧
          x.score = some pr.2) ∧
     (∀ fid, getMemoryFragment orphanState.meta fid = none →
        ∀ x ∈ qdrantSearch orphanState sampleQuery 10 sampleRank,
          ¬ x.frag.id = fid)) :=
  c8_search_hydration_drop orphanState sampleQuery 10 sampleRank
    (by
      intro pts pr hpr
      simp only [sampleRank, List.mem_map] at hpr
      obtain ⟨p, hp, he⟩ := hpr
      rw [← he]
      exact hp)

/-! ## C3: compensation on add -/

/-- C3. Compensation on add: the metadata row is written first; if the
embedding or vector-upsert step fails for any reason the just-written row
is deleted again and the operation fails, leaving both stores exactly as
before the call; if the metadata write itself fails the operation fails
with nothing written and no vector write attempted; only when both steps
succeed do both stores gain the fragment. -/
theorem c3_add_compensation (s : DualState) (f : MemoryFragment)
    (metaOk vecOk : Bool)
    (hfresh : s.meta.any (fun r => r.id = f.id) = false) :
    (metaOk = false → qdrantAdd s f metaOk vecOk = (.error .metaError, s)) ∧
    (metaOk = true → vecOk = false →
       qdrantAdd s f metaOk vecOk = (.error .vectorError, s)) ∧
    (metaOk = true → vecOk = true →
       qdrantAdd s f metaOk vecOk =
         (.ok (), { meta := s.meta ++ [f],
                    vec := upsertPoint s.vec (fragmentToPoint f) })) := by
  refine ⟨?_, ?_, ?_⟩
  · intro h1
    subst h1
    exact qdrantAdd_metaFail s f vecOk
  · intro h1 h2
    subst h1; subst h2
    exact qdrantAdd_vecFail s f hfresh
  · intro h1 h2
    subst h1; subst h2
    exact qdrantAdd_ok s f hfresh

theorem c3_witness :
    initState.meta.any (fun r => r.id = sampleFragment.id) = false ∧
    qdrantAdd initState sampleFragment true false =
      (.error .vectorError, initState) :=
  ⟨by decide,
   (c3_add_compensation initState sampleFragment true false (by decide)).2.1
     rfl rfl⟩

theorem getMemoryFragment_any (rows : List MemoryFragment) (fid : String)
    (old : MemoryFragment) (h : getMemoryFragment rows fid = some old) :
    rows.any (fun r => r.id = fid) = true := by
  unfold getMemoryFragment at h
  rw [List.any_eq_true]
  have h1 := List.mem_of_find?_eq_some h
  have h2 := List.find?_some h
  exact ⟨old, h1, h2⟩

theorem qdrantDelete_vecFail (s : DualState) (t p u fid : String)
    (old : MemoryFragment) (h : getMemoryFragment s.meta fid = some old)
    (hsc : old.tenant_id = t ∧ old.project_id = p ∧ old.user_id = u) :
    qdrantDelete s t p u fid false =
      (false, { meta := s.meta.filter (fun r => ¬ r.id = fid),
                vec := s.vec }) := by
  have hany := getMemoryFragment_any s.meta fid old h
  simp [qdrantDelete, h, hsc, deleteMemoryFragment, hany]

theorem qdrantDelete_ok (s : DualState) (t p u fid : String)
    (old : MemoryFragment) (h : getMemoryFragment s.meta fid = some old)
    (hsc : old.tenant_id = t ∧ old.project_id = p ∧ old.user_id = u) :
    qdrantDelete s t p u fid true =
      (true, { meta := s.meta.filter (fun r => ¬ r.id = fid),
               vec := deletePoint s.vec fid }) := by
  have hany := getMemoryFragment_any s.meta fid old h
  simp [qdrantDelete, h, hsc, deleteMemoryFragment, hany]

/-- C6 counterexample: on `sampleState` the fragment `"f1"` is in scope and
its metadata row is deleted, yet `delete` returns `false` because the
vector-point delete raised — refuting "returns true if and only if a
metadata row was deleted" and "the operation still returns success". -/
theorem c6_counterexample :
    sampleState.meta.any (fun r => r.id = "f1") = true ∧
    (qdrantDelete sampleState "t1" "p1" "u1" "f1" false).2.meta.any
      (fun r => r.id = "f1") = false ∧
    (qdrantDelete sampleState "t1" "p1" "u1" "f1" false).1 = false := by
  decide

/-- C6 (amended). `delete` returns `true` iff an in-scope metadata row
existed **and** the subsequent vector-point delete succeeded; when the
vector delete fails after the metadata delete, the metadata row is gone and
the vector point remains, but the operation reports failure (`false`)
rather than success. -/
theorem c6_delete_result (s : DualState) (t p u fid : String)
    (vecOk : Bool) :
    ((qdrantDelete s t p u fid vecOk).1 = true ↔
       (∃ old, getMemoryFragment s.meta fid = some old ∧
          old.tenant_id = t ∧ old.project_id = p ∧ old.user_id = u) ∧
       vecOk = true) ∧
    (∀ old, getMemoryFragment s.meta fid = some old →
       old.tenant_id = t → old.project_id = p → old.user_id = u →
       vecOk = false →
       qdrantDelete s t p u fid vecOk =
         (false, { meta := s.meta.filter (fun r => ¬ r.id = fid),
                   vec := s.vec })) := by
  constructor
  · cases hold : getMemoryFragment s.meta fid with
    | none =>
      rw [qdrantDelete_notFound s t p u fid vecOk hold]
      simp
    | some old =>
      by_cases hsc : old.tenant_id = t ∧ old.project_id = p ∧
          old.user_id = u
      · cases vecOk with
        | true =>
          rw [qdrantDelete_ok s t p u fid old hold hsc]
          exact ⟨fun _ => ⟨⟨old, rfl, hsc⟩, rfl⟩, fun _ => rfl⟩
        | false =>
          rw [qdrantDelete_vecFail s t p u fid old hold hsc]
          simp
      · rw [qdrantDelete_wrongScope s t p u fid vecOk old hold hsc]
        constructor
        · intro h
          exact absurd h (by simp)
        · rintro ⟨⟨old', hold', hsc'⟩, _⟩
          cases hold'
          exact absurd hsc' hsc
  · intro old hold h1 h2 h3 hv
    subst hv
    exact qdrantDelete_vecFail s t p u fid old hold ⟨h1, h2, h3⟩

theorem c6_witness :
    (qdrantDelete sampleState "t1" "p1" "u1" "f1" true).1 = true ∧
    qdrantDelete sampleState "t1" "p1" "u1" "f1" false =
      (false, { meta := sampleState.meta.filter (fun r => ¬ r.id = "f1"),
                vec := sampleState.vec }) :=
  ⟨((c6_delete_result sampleState "t1" "p1" "u1" "f1" true).1).mpr
     ⟨⟨sampleFragment, by decide, by decide, by decide, by decide⟩, rfl⟩,
   (c6_delete_result sampleState "t1" "p1" "u1" "f1" false).2 sampleFragment
     (by decide) (by decide) (by decide) (by decide) rfl⟩

/-! ## C9: update frame and `updated_at` -/

theorem getMemoryFragment_map_id_pres (rows : List MemoryFragment)
    (fid : String) (g : MemoryFragment → MemoryFragment)
    (hg : ∀ r, (g r).id = r.id) (old : MemoryFragment)
    (h : getMemoryFragment rows fid = some old) :
    getMemoryFragment (rows.map g) fid = some (g old) := by
  unfold getMemoryFragment at *
  induction rows with
  | nil => simp at h
  | cons r rs ih =>
    rw [List.map_cons]
    by_cases hr : r.id = fid
    · rw [List.find?_cons_of_pos _ (by simpa using hr)] at h
      cases h
      exact List.find?_cons_of_pos _ (by simp [hg, hr])
    · rw [List.find?_cons_of_neg _ (by simpa using hr)] at h
      rw [List.find?_cons_of_neg _ (by simp [hg, hr])]
      exact ih h

theorem qdrantUpdate_empty (s : DualState) (t p u fid : String)
    (upd : UpdateFields) (now : ℚ) (vecOk : Bool) (old : MemoryFragment)
    (hold : getMemoryFragment s.meta fid = some old)
    (hsc : old.tenant_id = t ∧ old.project_id = p ∧ old.user_id = u)
    (he : upd.isEmpty = true) :
    qdrantUpdate s t p u fid upd now vecOk = (.ok (some old), s) := by
  have hc : upd.content = none := by
    unfold UpdateFields.isEmpty at he
    simp only [Bool.and_eq_true, Option.isNone_iff_eq_none] at he
    exact he.1.1.1
  simp [qdrantUpdate, hold, hsc, updateMemoryFragment, he, hc]

theorem qdrantUpdate_meta_nonEmpty (s : DualState) (t p u fid : String)
    (upd : UpdateFields) (now : ℚ) (vecOk : Bool) (old : MemoryFragment)
    (hold : getMemoryFragment s.meta fid = some old)
    (hsc : old.tenant_id = t ∧ old.project_id = p ∧ old.user_id = u)
    (hne : upd.isEmpty = false) :
    (qdrantUpdate s t p u fid upd now vecOk).2.meta =
      s.meta.map (fun r => if r.id = fid then applyUpdates upd now r else r) := by
  have hany := getMemoryFragment_any s.meta fid old hold
  cases hc : upd.content with
  | none =>
    simp [qdrantUpdate, hold, hsc, updateMemoryFragment, hne, hany, hc]
  | some c =>
    cases vecOk with
    | true =>
      simp [qdrantUpdate, hold, hsc, updateMemoryFragment, hne, hany, hc]
    | false =>
      simp [qdrantUpdate, hold, hsc, updateMemoryFragment, hne, hany, hc]

/-- C9 counterexample: an `update` call on the in-scope fragment `"f1"`
that passes none of the updatable fields succeeds (it returns the
fragment), yet it leaves the whole state — `updated_at` included —
unchanged, refuting "updated_at after the call is strictly greater than
before" for such calls. -/
theorem c9_counterexample :
    getMemoryFragment sampleState.meta "f1" = some sampleFragment ∧
    sampleFragment.tenant_id = "t1" ∧ sampleFragment.project_id = "p1" ∧
    sampleFragment.user_id = "u1" ∧
    (qdrantUpdate sampleState "t1" "p1" "u1" "f1" emptyUpdate 10 true).2 =
      sampleState ∧
    (qdrantUpdate sampleState "t1" "p1" "u1" "f1" emptyUpdate 10 true).1 =
      Except.ok (some sampleFragment) ∧
    getMemoryFragment
      (qdrantUpdate sampleState "t1" "p1" "u1" "f1" emptyUpdate 10
        true).2.meta "f1" = some sampleFragment := by
  refine ⟨by decide, by decide, by decide, by decide, by decide, rfl,
    by decide⟩

/-- C9 (amended). For an `update` call on an in-scope fragment that passes
at least one updatable field, the stored fields not mentioned in the
request are unchanged afterwards and `updated_at` is set to the call time,
hence strictly greater than before whenever the clock has advanced; a call
that passes none of the updatable fields returns the fragment but leaves
both stores — `updated_at` included — entirely unchanged. -/
theorem c9_update_frame (s : DualState) (t p u fid : String)
    (upd : UpdateFields) (now : ℚ) (vecOk : Bool) (old : MemoryFragment)
    (hold : getMemoryFragment s.meta fid = some old)
    (hsc : old.tenant_id = t ∧ old.project_id = p ∧ old.user_id = u) :
    (upd.isEmpty = true →
       qdrantUpdate s t p u fid upd now vecOk = (.ok (some old), s)) ∧
    (upd.isEmpty = false → old.updated_at < now →
       getMemoryFragment (qdrantUpdate s t p u fid upd now vecOk).2.meta fid
         = some (applyUpdates upd now old) ∧
       old.updated_at < (applyUpdates upd now old).updated_at ∧
       (applyUpdates upd now old).id = old.id ∧
       (applyUpdates upd now old).tenant_id = old.tenant_id ∧
       (applyUpdates upd now old).project_id = old.project_id ∧
       (applyUpdates upd now old).user_id = old.user_id ∧
       (applyUpdates upd now old).memory_type = old.memory_type ∧
       (applyUpdates upd now old).role = old.role ∧
       (applyUpdates upd now old).session_id = old.session_id ∧
       (applyUpdates upd now old).created_at = old.created_at ∧
       (applyUpdates upd now old).hit_count = old.hit_count ∧
       (upd.content = none →
          (applyUpdates upd now old).content = old.content) ∧
       (upd.tags = none → (applyUpdates upd now old).tags = old.tags) ∧
       (upd.importance = none →
          (applyUpdates upd now old).importance = old.importance) ∧
       (upd.metadata = none →
          (applyUpdates upd now old).metadata = old.metadata)) := by
  constructor
  · intro he
    exact qdrantUpdate_empty s t p u fid upd now vecOk old hold hsc he
  · intro hne hlt
    refine ⟨?_, hlt, rfl, rfl, rfl, rfl, rfl, rfl, rfl, rfl, rfl,
      ?_, ?_, ?_, ?_⟩
    · rw [qdrantUpdate_meta_nonEmpty s t p u fid upd now vecOk old hold hsc
        hne]
      have : getMemoryFragment
          (s.meta.map (fun r => if r.id = fid then applyUpdates upd now r
            else r)) fid = some (if old.id = fid then applyUpdates upd now old
              else old) := by
        apply getMemoryFragment_map_id_pres s.meta fid _ _ old hold
        intro r
        by_cases hr : r.id = fid
        · simp [hr, applyUpdates_id]
        · simp [hr]
      have hoid : old.id = fid := by
        unfold getMemoryFragment at hold
        have := List.find?_some hold
        simpa using this
      rw [this, if_pos hoid]
    · intro h; simp [applyUpdates, h]
    · intro h; simp [applyUpdates, h]
    · intro h; simp [applyUpdates, h]
    · intro h; simp [applyUpdates, h]

theorem c9_witness :
    qdrantUpdate sampleState "t1" "p1" "u1" "f1" emptyUpdate 10 true =
      (.ok (some sampleFragment), sampleState) ∧
    getMemoryFragment
      (qdrantUpdate sampleState "t1" "p1" "u1" "f1" importanceUpdate 10
        true).2.meta "f1" = some (applyUpdates importanceUpdate 10
          sampleFragment) ∧
    sampleFragment.updated_at <
      (applyUpdates importanceUpdate 10 sampleFragment).updated_at ∧
    (applyUpdates importanceUpdate 10 sampleFragment).content =
      sampleFragment.content :=
  ⟨(c9_update_frame sampleState "t1" "p1" "u1" "f1" emptyUpdate 10 true
      sampleFragment (by decide) (by decide)).1 rfl,
   ((c9_update_frame sampleState "t1" "p1" "u1" "f1" importanceUpdate 10 true
      sampleFragment (by decide) (by decide)).2 rfl (by decide)).1,
   ((c9_update_frame sampleState "t1" "p1" "u1" "f1" importanceUpdate 10 true
      sampleFragment (by decide) (by decide)).2 rfl (by decide)).2.1,
   ((c9_update_frame sampleState "t1" "p1" "u1" "f1" importanceUpdate 10 true
      sampleFragment (by decide) (by decide)).2 rfl
        (by decide)).2.2.2.2.2.2.2.2.2.2.2.1 rfl⟩

/-- C2. Scope resolution: with a bound user, the effective user is the
bound one when the request's user id is absent (or empty) or equal to it,
and a different passed user id is rejected forbidden (403); without a bound
user, an absent or empty passed user id is rejected bad-request (400) and
otherwise the passed user id becomes the effective user. -/
theorem c2_scope_resolution (bound passed : Option String) :
    (strTruthy bound = true →
       ((strTruthy passed = false ∨ passed = bound) →
          resolveUserId bound passed = .ok (bound.getD "")) ∧
       (strTruthy passed = true → ¬ passed = bound →
          resolveUserId bound passed = .forbidden)) ∧
    (strTruthy bound = false →
       (strTruthy passed = false →
          resolveUserId bound passed = .badRequest) ∧
       (strTruthy passed = true →
          resolveUserId bound passed = .ok (passed.getD ""))) := by
  constructor
  · intro hb
    constructor
    · intro hp
      unfold resolveUserId
      rw [if_pos hb]
      rcases hp with hp | hp
      · rw [if_neg (by rintro ⟨hpt, _⟩; rw [hp] at hpt; cases hpt)]
      · subst hp
        rw [if_neg (by rintro ⟨_, hne⟩; exact hne rfl)]
    · intro hpt hne
      obtain ⟨bs, hbs, hbne⟩ : ∃ s, bound = some s ∧ s ≠ "" := by
        cases bound with
        | none => simp [strTruthy] at hb
        | some s => exact ⟨s, rfl, by simpa [strTruthy] using hb⟩
      obtain ⟨ps, hps, hpne⟩ : ∃ s, passed = some s ∧ s ≠ "" := by
        cases passed with
        | none => simp [strTruthy] at hpt
        | some s => exact ⟨s, rfl, by simpa [strTruthy] using hpt⟩
      subst hbs; subst hps
      unfold resolveUserId
      rw [if_pos hb,
        if_pos ⟨hpt, by simpa using fun h => hne (by rw [h])⟩]
  · intro hb
    constructor
    · intro hp
      unfold resolveUserId
      rw [if_neg (by simp [hb]), if_pos (by simp [hp])]
    · intro hpt
      unfold resolveUserId
      rw [if_neg (by simp [hb]), if_neg (by simp [hpt])]

theorem c2_witness :
    resolveUserId (some "alice") none = .ok "alice" ∧
    resolveUserId (some "alice") (some "alice") = .ok "alice" ∧
    resolveUserId (some "alice") (some "bob") = .forbidden ∧
    resolveUserId none (some "") = .badRequest ∧
    resolveUserId none (some "carol") = .ok "carol" :=
  ⟨((c2_scope_resolution (some "alice") none).1 (by decide)).1
     (Or.inl (by decide)),
   ((c2_scope_resolution (some "alice") (some "alice")).1 (by decide)).1
     (Or.inr rfl),
   ((c2_scope_resolution (some "alice") (some "bob")).1 (by decide)).2
     (by decide) (by decide),
   ((c2_scope_resolution none (some "")).2 (by decide)).1 (by decide),
   ((c2_scope_resolution none (some "carol")).2 (by decide)).2 (by decide)⟩

/-- C4. `verify(secret)` succeeds iff some stored row has
`key_hash = SHA-256(secret)` and `is_active`; with the `UNIQUE(key_hash)`
schema constraint the returned key carries exactly that row's
`(tenant_id, project_id, user_id)` scope. -/
theorem c4_verify_api_key (hash : String → String) (rows : List ApiKeyRow)
    (secret : String)
    (huniq : (rows.map (fun r => r.key_hash)).Nodup) :
    ((verifyApiKey hash rows secret).isSome = true ↔
       ∃ r ∈ rows, r.key_hash = hash secret ∧ r.is_active = true) ∧
    (∀ r ∈ rows, r.key_hash = hash secret → r.is_active = true →
       verifyApiKey hash rows secret = some (apiKeyOfRow secret r)) := by
  constructor
  · unfold verifyApiKey
    rw [Option.isSome_map']
    rw [List.find?_isSome]
    constructor
    · rintro ⟨r, hr, hpred⟩
      simp only [Bool.and_eq_true, decide_eq_true_eq] at hpred
      exact ⟨r, hr, hpred.1, hpred.2⟩
    · rintro ⟨r, hr, h1, h2⟩
      exact ⟨r, hr, by simp [h1, h2]⟩
  · induction rows with
    | nil => intro r hr; simp at hr
    | cons a l ih =>
      intro r hr hh ha
      rcases List.mem_cons.mp hr with hr | hr
      · subst hr
        unfold verifyApiKey
        rw [List.find?_cons_of_pos _ (by simp [hh, ha])]
        rfl
      · by_cases hah : a.key_hash = hash secret
        · exfalso
          have hnin := (List.nodup_cons.mp huniq).1
          apply hnin
          show a.key_hash ∈ l.map (fun r => r.key_hash)
          rw [hah, ← hh]
          exact List.mem_map_of_mem _ hr
        · unfold verifyApiKey
          rw [List.find?_cons_of_neg _ (by simp [hah])]
          exact ih (List.nodup_cons.mp huniq).2 r hr hh ha

theorem c4_witness :
    (((verifyApiKey sampleHash [revokedKeyRow, sampleKeyRow]
        "secret").isSome = true) ↔
      ∃ r ∈ [revokedKeyRow, sampleKeyRow],
        r.key_hash = sampleHash "secret" ∧ r.is_active = true) ∧
    verifyApiKey sampleHash [revokedKeyRow, sampleKeyRow] "secret" =
      some (apiKeyOfRow "secret" sampleKeyRow) :=
  ⟨(c4_verify_api_key sampleHash [revokedKeyRow, sampleKeyRow] "secret"
      (by decide)).1,
   (c4_verify_api_key sampleHash [revokedKeyRow, sampleKeyRow] "secret"
      (by decide)).2 sampleKeyRow (by decide) (by decide) rfl⟩

/-- C7 counterexample: deleting project `p1` of tenant `t1` through the
`PostgresMetaStore` implementation cited by the claim succeeds but removes
the key row entirely — no row with `is_active = false` remains, refuting
"soft-revoke, the key rows remain". -/
theorem c7_counterexample :
    sampleChannelState.keys.any (fun k => k.key_id = "eng_k1") = true ∧
    (pgDeleteProject sampleChannelState "p1" "t1").1 = true ∧
    (pgDeleteProject sampleChannelState "p1" "t1").2.keys = [] := by
  decide

/-- C7 (amended). Deleting a project first verifies it belongs to the
given tenant (else it fails, changing nothing, in every implementation);
on success `MetaStore.delete_project` soft-revokes — every key row under
the project remains (same `key_id`s) with `is_active = false` — while the
`PostgresMetaStore`/`SQLiteMetaStore` implementations delete those key
rows outright; in all implementations the project row is removed. -/
theorem c7_delete_project (s : ChannelState) (pid tid : String) :
    ((getProject s.projects pid = none ∨
        ∃ pr, getProject s.projects pid = some pr ∧ ¬ pr.tenant_id = tid) →
       metaStoreDeleteProject s pid tid = (false, s) ∧
       pgDeleteProject s pid tid = (false, s)) ∧
    (∀ pr, getProject s.projects pid = some pr → pr.tenant_id = tid →
       (metaStoreDeleteProject s pid tid).1 = true ∧
       (pgDeleteProject s pid tid).1 = true ∧
       (metaStoreDeleteProject s pid tid).2.keys.map (fun k => k.key_id) =
         s.keys.map (fun k => k.key_id) ∧
       (∀ k ∈ (metaStoreDeleteProject s pid tid).2.keys,
          k.project_id = pid → k.is_active = false) ∧
       (pgDeleteProject s pid tid).2.keys =
         s.keys.filter (fun k => ¬ k.project_id = pid) ∧
       (metaStoreDeleteProject s pid tid).2.projects =
         s.projects.filter (fun p => ¬ p.id = pid) ∧
       (pgDeleteProject s pid tid).2.projects =
         s.projects.filter (fun p => ¬ p.id = pid)) := by
  constructor
  · intro h
    rcases h with h | ⟨pr, hpr, hnt⟩
    · constructor
      · simp [metaStoreDeleteProject, h]
      · simp [pgDeleteProject, h]
    · constructor
      · simp [metaStoreDeleteProject, hpr, hnt]
      · simp [pgDeleteProject, hpr, hnt]
  · intro pr hpr ht
    have hany : s.projects.any (fun p => p.id = pid) = true := by
      rw [List.any_eq_true]
      have h1 := List.mem_of_find?_eq_some hpr
      have h2 := List.find?_some hpr
      exact ⟨pr, h1, h2⟩
    refine ⟨?_, ?_, ?_, ?_, ?_, ?_, ?_⟩
    · simp [metaStoreDeleteProject, hpr, ht, hany]
    · simp [pgDeleteProject, hpr, ht, hany]
    · have hm : (metaStoreDeleteProject s pid tid).2.keys =
          s.keys.map (fun k =>
            if k.project_id = pid then { k with is_active := false }
            else k) := by
        simp [metaStoreDeleteProject, hpr, ht]
      rw [hm, List.map_map]
      apply List.map_congr_left
      intro k _
      by_cases hk : k.project_id = pid
      · simp [hk]
      · simp [hk]
    · intro k hk hkp
      have hm : (metaStoreDeleteProject s pid tid).2.keys =
          s.keys.map (fun k =>
            if k.project_id = pid then { k with is_active := false }
            else k) := by
        simp [metaStoreDeleteProject, hpr, ht]
      rw [hm] at hk
      obtain ⟨k0, hk0, hke⟩ := List.mem_map.mp hk
      by_cases hk0p : k0.project_id = pid
      · rw [if_pos hk0p] at hke
        rw [← hke]
      · rw [if_neg hk0p] at hke
        subst hke
        exact absurd hkp hk0p
    · simp [pgDeleteProject, hpr, ht]
    · simp [metaStoreDeleteProject, hpr, ht]
    · simp [pgDeleteProject, hpr, ht]

theorem c7_witness :
    (metaStoreDeleteProject sampleChannelState "p1" "t1").1 = true ∧
    (∀ k ∈ (metaStoreDeleteProject sampleChannelState "p1" "t1").2.keys,
       k.project_id = "p1" → k.is_active = false) ∧
    (metaStoreDeleteProject sampleChannelState "p1" "t1").2.keys.map
      (fun k => k.key_id) =
      sampleChannelState.keys.map (fun k => k.key_id) ∧
    (metaStoreDeleteProject sampleChannelState "p1" "t1").2.projects =
      sampleChannelState.projects.filter (fun p => ¬ p.id = "p1") :=
  ⟨((c7_delete_project sampleChannelState "p1" "t1").2 sampleProjectRow
      (by decide) (by decide)).1,
   ((c7_delete_project sampleChannelState "p1" "t1").2 sampleProjectRow
      (by decide) (by decide)).2.2.2.1,
   ((c7_delete_project sampleChannelState "p1" "t1").2 sampleProjectRow
      (by decide) (by decide)).2.2.1,
   ((c7_delete_project sampleChannelState "p1" "t1").2 sampleProjectRow
      (by decide) (by decide)).2.2.2.2.2.1⟩

theorem memRun_window_inv (maxRpm : Nat) : ∀ (ts a : List ℚ) (t0 : ℚ),
    ts.Pairwise (· ≤ ·) → (∀ x ∈ ts, t0 ≤ x) →
    (memRun maxRpm ts (a.filter (fun t => t0 - 60 < t))).1 =
      (a ++ admittedOf ts
        (memRun maxRpm ts (a.filter (fun t => t0 - 60 < t))).2).filter
        (fun t => ts.getLastD t0 - 60 < t) := by
  intro ts
  induction ts with
  | nil =>
    intro a t0 _ _
    simp [memRun, admittedOf]
  | cons t ts ih =>
    intro a t0 hpw hle
    have ht0t : t0 ≤ t := hle t (List.mem_cons_self t ts)
    have htrim : (a.filter (fun x => t0 - 60 < x)).filter
        (fun x => t - 60 < x) = a.filter (fun x => t - 60 < x) := by
      rw [List.filter_filter]
      apply List.filter_congr
      intro x _
      by_cases hx : t - 60 < x
      · have hx0 : t0 - 60 < x := lt_of_le_of_lt (by linarith) hx
        simp [hx, hx0]
      · simp [hx]
    have hpw' : ts.Pairwise (· ≤ ·) := (List.pairwise_cons.mp hpw).2
    have hle' : ∀ x ∈ ts, t ≤ x := (List.pairwise_cons.mp hpw).1
    show (memRun maxRpm (t :: ts) (a.filter (fun x => t0 - 60 < x))).1 = _
    unfold memRun memStep
    simp only
    rw [htrim]
    by_cases hd : maxRpm ≤ (a.filter (fun x => t - 60 < x)).length
    · rw [if_pos hd]
      have := ih a t hpw' hle'
      simp only at this
      rw [this]
      have hz : admittedOf (t :: ts)
          (true :: (memRun maxRpm ts (a.filter (fun x => t - 60 < x))).2) =
          admittedOf ts
            (memRun maxRpm ts (a.filter (fun x => t - 60 < x))).2 := by
        simp [admittedOf]
      rw [hz, List.getLastD_cons]
    · rw [if_neg hd]
      have hsingle : a.filter (fun x => t - 60 < x) ++ [t] =
          (a ++ [t]).filter (fun x => t - 60 < x) := by
        rw [List.filter_append]
        have htt : t - 60 < t := by linarith
        simp [htt]
      rw [hsingle]
      have := ih (a ++ [t]) t hpw' hle'
      simp only at this
      rw [this]
      have hz : admittedOf (t :: ts)
          (false :: (memRun maxRpm ts
            ((a ++ [t]).filter (fun x => t - 60 < x))).2) =
          t :: admittedOf ts
            (memRun maxRpm ts
              ((a ++ [t]).filter (fun x => t - 60 < x))).2 := by
        simp [admittedOf]
      rw [hz, List.getLastD_cons, List.append_assoc, List.singleton_append]

/-- C10. The in-process fallback limiter records a timestamp only when the
request is admitted: a rejected request leaves the window unchanged apart
from expiry trimming; consequently, over any nondecreasing request
sequence the stored window is exactly the admitted requests of the last 60
seconds, and each admission decision is computed from the previously
admitted requests alone. The distributed (Redis) path, by contrast,
records the timestamp before counting, so even a rejected request is
recorded. -/
theorem c10_fallback_limiter (maxRpm : Nat) (ts : List ℚ)
    (hm : ts.Chain' (· ≤ ·)) :
    ((memRun maxRpm ts []).1 =
       (admittedOf ts (memRun maxRpm ts []).2).filter
         (fun t => ts.getLastD 0 - 60 < t)) ∧
    (∀ w now, (memStep maxRpm w now).1 = true →
       (memStep maxRpm w now).2 = w.filter (fun t => now - 60 < t)) ∧
    (∀ w now, (memStep maxRpm w now).1 =
       decide (maxRpm ≤ (w.filter (fun t => now - 60 < t)).length)) ∧
    (∀ w now, now ∈ (redisStep maxRpm w now).2) := by
  refine ⟨?_, ?_, ?_, ?_⟩
  · cases ts with
    | nil => simp [memRun, admittedOf]
    | cons t ts' =>
      have hpw : (t :: ts').Pairwise (· ≤ ·) :=
        List.chain'_iff_pairwise.mp hm
      have hle : ∀ x ∈ t :: ts', t ≤ x := by
        intro x hx
        rcases List.mem_cons.mp hx with hx | hx
        · exact hx ▸ le_refl t
        · exact (List.pairwise_cons.mp hpw).1 x hx
      have h := memRun_window_inv maxRpm (t :: ts') [] t hpw hle
      simpa [List.getLastD_cons] using h
  · intro w now h
    unfold memStep at *
    by_cases hd : maxRpm ≤ (w.filter (fun t => now - 60 < t)).length
    · simp only [hd, if_pos, if_true]
    · rw [if_neg hd] at h
      simp at h
  · intro w now
    unfold memStep
    by_cases hd : maxRpm ≤ (w.filter (fun t => now - 60 < t)).length
    · simp [hd]
    · simp [hd]
  · intro w now
    simp [redisStep]

theorem c10_witness :
    (([0, 1, 2] : List ℚ).Chain' (· ≤ ·)) ∧
    ((memRun 1 [0, 1, 2] []).1 =
       (admittedOf [0, 1, 2] (memRun 1 [0, 1, 2] []).2).filter
         (fun t => ([0, 1, 2] : List ℚ).getLastD 0 - 60 < t)) :=
  ⟨by norm_num [List.chain'_cons], (c10_fallback_limiter 1 [0, 1, 2]
     (by norm_num [List.chain'_cons])).1⟩

/-- C5 counterexample: at time 100 the identity of `c5Request` trips the
limiter (limit 1, one admitted request 10 seconds ago), so the claim
demands a 429 answered before any credential check; the pipeline instead
evaluates the API key first and answers 401 — the limiter is never
consulted and the decision depends on the credential. -/
theorem c5_counterexample :
    (memStep 1 (windowGet c5Windows
      (if strTruthy c5Request.apiKey then c5Request.apiKey.getD ""
       else c5Request.clientHost)) 100).1 = true ∧
    appHandle "admintok" 1 sampleHash [] c5Request 100 okRouter c5Windows =
      ({ status := 401, error := "unauthorized" }, c5Windows) ∧
    ¬ (401 = 429) := by
  refine ⟨?_, by decide, by decide⟩
  norm_num [memStep, windowGet, c5Windows, c5Request, strTruthy, List.filter,
    List.find?]

/-- C5 (amended). The credential gate runs before the rate limit: on a
memory-path (non-public, non-channel) request whose API key is missing or
fails verification, the pipeline answers 401 with the limiter windows
untouched and the router never reached — regardless of whether the
limiter would have tripped; and when the key verifies but the limiter
trips, the request is answered 429 (independently of the router), its key
having already been evaluated. -/
theorem c5_gate_order (adminToken : String) (maxRpm : Nat)
    (hash : String → String) (keys : List ApiKeyRow) (req : Request)
    (now : ℚ) (router : Handler) (w : Windows)
    (hpub : ¬ (authExcludedPrefixes.any
        (fun pre => strStartsWith req.path pre) ∨
      req.path = "/" ∨ req.path = "/health"))
    (hchan : ¬ strStartsWith req.path "/v1/channels" = true) :
    ((strTruthy req.apiKey = false ∨
        verifyApiKey hash keys (req.apiKey.getD "") = none) →
       appHandle adminToken maxRpm hash keys req now router w =
         ({ status := 401, error := "unauthorized" }, w)) ∧
    (∀ k, verifyApiKey hash keys (req.apiKey.getD "") = some k →
       strTruthy req.apiKey = true → 0 < maxRpm →
       (memStep maxRpm (windowGet w (req.apiKey.getD "")) now).1 = true →
       appHandle adminToken maxRpm hash keys req now router w =
         ({ status := 429, error := "rate_limited" },
          windowSet w (req.apiKey.getD "")
            (memStep maxRpm (windowGet w (req.apiKey.getD "")) now).2)) := by
  constructor
  · intro hcred
    unfold appHandle apiKeyAuthDispatch
    rw [if_neg hpub, if_neg (by simpa using hchan)]
    rcases hcred with hcred | hcred
    · rw [if_pos (by simp [hcred])]
    · by_cases htr : strTruthy req.apiKey = true
      · rw [if_neg (by simp [htr]), hcred]
      · rw [if_pos (by simpa using htr)]
  · intro k hk htr hpos hstep
    unfold appHandle apiKeyAuthDispatch
    rw [if_neg hpub, if_neg (by simpa using hchan),
      if_neg (by simp [htr]), hk]
    rw [if_pos hpos]
    unfold rateLimiterDispatch
    rw [if_neg (by omega)]
    simp [htr, hstep]

theorem c5_witness :
    appHandle "admintok" 1 sampleHash [sampleKeyRow] c5Request 100 okRouter
      c5OkWindows =
      ({ status := 401, error := "unauthorized" }, c5OkWindows) ∧
    appHandle "admintok" 1 sampleHash [sampleKeyRow] c5OkRequest 100
      okRouter c5OkWindows =
      ({ status := 429, error := "rate_limited" },
       windowSet c5OkWindows "secret"
         (memStep 1 (windowGet c5OkWindows "secret") 100).2) :=
  ⟨(c5_gate_order "admintok" 1 sampleHash [sampleKeyRow] c5Request 100
      okRouter c5OkWindows (by decide) (by decide)).1 (Or.inr (by decide)),
   (c5_gate_order "admintok" 1 sampleHash [sampleKeyRow] c5OkRequest 100
      okRouter c5OkWindows (by decide) (by decide)).2
     (apiKeyOfRow "secret" sampleKeyRow) (by decide) (by decide)
     (by decide)
     (by norm_num [memStep, windowGet, c5OkWindows, List.filter,
       List.find?])⟩

end Engrama
